import Mathlib

/-!
Shallow embedding of the SimPy health-economic discrete-event simulation model
(source file he_model_oo.py) and proofs about its per-patient care pathway.

The source drives each patient through a treatment loop (at most max_cycles
iterations, each ending in death or a survived full cycle) followed, for
survivors, by a followup phase.  Every event appends one outcome row to a
global output list.  Since every patient process starts at simulated time 0
and only ever suspends for its own sampled durations, and patients never
interact, each patient pathway is embedded as a sequential function of the
patient's own streams of uniform and Gamma draws, carrying the patient's local
clock (the value of env.now at each of that patient's resumptions).  Real
draws are modelled as rationals.
-/

set_option maxRecDepth 4000

namespace HEModel

/-- Patient life state: the source's Patient.state field holds the string
Alive (set in Patient.__init__) or Dead (set in the death branch of
Model.set_care_pathway). -/
inductive PState where
  | Alive : PState
  | Dead : PState
deriving DecidableEq, Repr, Inhabited

/-- Phase tag passed to Model.save_data: the source passes the strings
treatment and followup. -/
inductive Phase where
  | treatment : Phase
  | followup : Phase
deriving DecidableEq, Repr, Inhabited

/-- The constants bag (class g of the source) as a configuration record.
The source's g.sim_duration is simpy Infinity, so the generator-loop test
env.now < g.sim_duration is always true; it is therefore not a field here. -/
structure Config where
  max_cycles : Nat
  prob_death : ℚ
  n_patients : Nat
  c_treatment_init : ℚ
  c_treatment_daily : ℚ
  c_followup : ℚ
  u_treatment : ℚ
  u_followup : ℚ
  days_per_year : ℚ
  number_of_runs : Nat
deriving DecidableEq, Repr

/-- The concrete constant values of class g in the source
(0.15 = 3/20, 0.7 = 7/10, 0.8 = 4/5, 365.2422 = 3652422/10000). -/
def g : Config :=
  { max_cycles := 5
    prob_death := 3/20
    n_patients := 10000
    c_treatment_init := 5000
    c_treatment_daily := 250
    c_followup := 3500
    u_treatment := 7/10
    u_followup := 4/5
    days_per_year := 3652422/10000
    number_of_runs := 1 }

/-- The Patient class of the source: patient_id, state, treatment_cycles,
cost and utility. -/
structure Patient where
  patient_id : Nat
  state : PState
  treatment_cycles : Nat
  cost : ℚ
  utility : ℚ
deriving DecidableEq, Repr, Inhabited

/-- Patient.__init__ of the source: state Alive, zero treatment cycles,
cost 0, utility 0. -/
def Patient.mk0 (patient_id : Nat) : Patient :=
  { patient_id := patient_id
    state := PState.Alive
    treatment_cycles := 0
    cost := 0
    utility := 0 }

/-- One row of the source's output_list, appended by Model.save_data:
patient_id, state, treatment_cycles, phase, cost, utility, run_number and
env.now (called event_time in the specification). -/
structure OutcomeRecord where
  patient_id : Nat
  state : PState
  treatment_cycles : Nat
  phase : Phase
  cost : ℚ
  utility : ℚ
  run_number : Nat
  event_time : ℚ
deriving DecidableEq, Repr, Inhabited

/-- Model.save_data of the source: snapshot the patient's fields together
with the phase tag, the model's run_number and the current simulated time. -/
def save_data (run_number : Nat) (now : ℚ) (patient : Patient) (phase : Phase) :
    OutcomeRecord :=
  { patient_id := patient.patient_id
    state := patient.state
    treatment_cycles := patient.treatment_cycles
    phase := phase
    cost := patient.cost
    utility := patient.utility
    run_number := run_number
    event_time := now }

/-- Python's int() applied to a real number: truncation toward zero.
The Gamma draws fed to it in the source are nonnegative, where truncation
agrees with the floor. -/
def truncInt (q : ℚ) : Int := if 0 ≤ q then ⌊q⌋ else ⌈q⌉

/-- Model.increment_cost of the source: int(duration) * c_treatment_daily,
plus c_treatment_init exactly when the patient's treatment_cycles equals 1.
It is called with the patient whose treatment_cycles has already been
incremented for the current cycle. -/
def increment_cost (cfg : Config) (patient : Patient) (duration : ℚ) : ℚ :=
  let cost_increment : ℚ := (truncInt duration : ℚ) * cfg.c_treatment_daily
  if patient.treatment_cycles = 1 then cost_increment + cfg.c_treatment_init
  else cost_increment

/-- Model.increment_utility of the source: duration * (utility / days_per_year). -/
def increment_utility (cfg : Config) (duration : ℚ) (utility : ℚ) : ℚ :=
  duration * (utility / cfg.days_per_year)

/-- The mutable data of one patient's pathway while the treatment while-loop
of Model.set_care_pathway runs: the patient, the patient's local clock now
(the value of env.now whenever this patient's process is resumed), the number
k of loop iterations executed so far (each iteration consumes the k-th
uniform draw and the k-th Gamma draw of this patient's streams), and the
outcome rows appended so far for this patient. -/
structure LoopState where
  patient : Patient
  now : ℚ
  k : Nat
  recs : List OutcomeRecord
deriving DecidableEq, Repr

/-- One iteration of the treatment while-loop of Model.set_care_pathway:
increment treatment_cycles, draw rand uniform; if rand < prob_death set the
state to Dead, elapse a Gamma time-to-death, set cost and utility increments
and save a treatment row; otherwise elapse a Gamma full-cycle time, set cost
and utility increments and save a treatment row.  The Gamma distribution
parameters (1.5, 3 for death and 3, 10 for a full cycle) only shape the
distribution of the drawn value; the draw itself is the k-th element of the
gammaDraw stream. -/
def treatmentStep (cfg : Config) (uniformDraw gammaDraw : Nat → ℚ)
    (run_number : Nat) (s : LoopState) : LoopState :=
  let patient1 := { s.patient with treatment_cycles := s.patient.treatment_cycles + 1 }
  let rand := uniformDraw s.k
  if rand < cfg.prob_death then
    let patient2 := { patient1 with state := PState.Dead }
    let time_to_death := gammaDraw s.k
    let now := s.now + time_to_death
    let patient3 := { patient2 with
      cost := increment_cost cfg patient2 time_to_death
      utility := increment_utility cfg time_to_death cfg.u_treatment }
    { patient := patient3
      now := now
      k := s.k + 1
      recs := s.recs ++ [save_data run_number now patient3 Phase.treatment] }
  else
    let time_to_full_cycle := gammaDraw s.k
    let now := s.now + time_to_full_cycle
    let patient3 := { patient1 with
      cost := increment_cost cfg patient1 time_to_full_cycle
      utility := increment_utility cfg time_to_full_cycle cfg.u_treatment }
    { patient := patient3
      now := now
      k := s.k + 1
      recs := s.recs ++ [save_data run_number now patient3 Phase.treatment] }

/-- The treatment while-loop of Model.set_care_pathway, condition
treatment_cycles < max_cycles and state == Alive checked before every
iteration exactly as in the source.  The extra fuel argument only bounds the
recursion; since every iteration increments treatment_cycles, fuel
max_cycles (with which set_care_pathway calls it on a fresh patient) is never
exhausted while the condition still holds. -/
def treatmentLoop (cfg : Config) (uniformDraw gammaDraw : Nat → ℚ)
    (run_number : Nat) : Nat → LoopState → LoopState
  | 0, s => s
  | fuel + 1, s =>
    if s.patient.treatment_cycles < cfg.max_cycles ∧ s.patient.state = PState.Alive then
      treatmentLoop cfg uniformDraw gammaDraw run_number fuel
        (treatmentStep cfg uniformDraw gammaDraw run_number s)
    else s

/-- The result of one patient's complete pathway: the final patient, the
patient's local clock after its last event, and the outcome rows this
patient appended. -/
structure PathwayResult where
  patient : Patient
  now : ℚ
  recs : List OutcomeRecord
deriving DecidableEq, Repr

/-- Model.set_care_pathway of the source for one patient: the treatment
while-loop, then, if the patient is still Alive, the followup phase (elapse a
Gamma followup time, set the utility increment, set cost to the lumpsum
c_followup, save a followup row).  The followup Gamma draw is the next unused
element of the patient's gammaDraw stream.  The patient's process starts at
simulated time 0 (all patients are generated at t = 0 with zero interarrival
time) and env.now at each of its resumptions is the sum of its own elapsed
timeouts, carried here as the local clock. -/
def set_care_pathway (cfg : Config) (uniformDraw gammaDraw : Nat → ℚ)
    (run_number : Nat) (patient0 : Patient) : PathwayResult :=
  let s := treatmentLoop cfg uniformDraw gammaDraw run_number cfg.max_cycles
    { patient := patient0, now := 0, k := 0, recs := [] }
  if s.patient.state = PState.Alive then
    let time_in_folllowup := gammaDraw s.k
    let now := s.now + time_in_folllowup
    let patient1 := { s.patient with
      utility := increment_utility cfg time_in_folllowup cfg.u_followup
      cost := cfg.c_followup }
    { patient := patient1
      now := now
      recs := s.recs ++ [save_data run_number now patient1 Phase.followup] }
  else
    { patient := s.patient, now := s.now, recs := s.recs }

/-- One run of the model: Model.run drives Model.generate_patients, which
first increments self.run_number (set to the constructor argument) and then,
since env.now = 0 < sim_duration = Infinity, creates patients 1 .. n_patients
at time 0 and processes each pathway.  Patients never interact, so each is
given its own draw streams (indexed by patient_id); the rows are grouped per
patient here, whereas the source's global list interleaves them in event
order — the collection of rows per patient is the same. -/
def runModel (cfg : Config) (uniformDraws gammaDraws : Nat → Nat → ℚ)
    (run_number : Nat) : List OutcomeRecord :=
  (List.range cfg.n_patients).flatMap fun i =>
    (set_care_pathway cfg (uniformDraws (i + 1)) (gammaDraws (i + 1))
      (run_number + 1) (Patient.mk0 (i + 1))).recs

/-- The driver loop at the bottom of the source: for run in
range(g.number_of_runs), construct Model(run) and execute its run method.
All rows of all runs land in the same output list. -/
def driverLoop (cfg : Config) (uniformDraws gammaDraws : Nat → Nat → Nat → ℚ) :
    List OutcomeRecord :=
  (List.range cfg.number_of_runs).flatMap fun rn =>
    runModel cfg (uniformDraws rn) (gammaDraws rn) rn

/-- The specification's abstract patient states {Treatment, Dead, Followup,
Completed}.  The source code itself only stores Alive and Dead. -/
inductive SpecState where
  | Treatment : SpecState
  | Dead : SpecState
  | Followup : SpecState
  | Completed : SpecState
deriving DecidableEq, Repr

/-- Phase of the last outcome row a patient produced, if any. -/
def lastPhase (recs : List OutcomeRecord) : Option Phase :=
  (recs.getLast?).map OutcomeRecord.phase

/-- Abstraction map from a finished pathway of the source to the
specification's state vocabulary: a patient whose state field is Dead is
Dead; a patient whose state field is still Alive is Completed when its
pathway ended with a followup row (it passed through Followup), and would be
counted as still in Treatment otherwise. -/
def specFinal (res : PathwayResult) : SpecState :=
  match res.patient.state with
  | PState.Dead => SpecState.Dead
  | PState.Alive =>
    if lastPhase res.recs = some Phase.followup then SpecState.Completed
    else SpecState.Treatment

/-- Sum of the first n elements of a draw stream. -/
def sumTo (f : Nat → ℚ) (n : Nat) : ℚ := ((List.range n).map f).sum

/-- The (phase, treatment_cycles) signature of an outcome row. -/
def recPat (r : OutcomeRecord) : Phase × Nat := (r.phase, r.treatment_cycles)

/-- The signature sequence of the treatment rows of a patient that has
completed n cycles: one treatment row per cycle 1 .. n, in order. -/
def cyclePattern (n : Nat) : List (Phase × Nat) :=
  (List.range n).map fun i => (Phase.treatment, i + 1)

/-- The cost increment the specification prescribes for the treatment row of
cycle c, whose elapsed duration is the (c-1)-st Gamma draw:
floor(duration) * c_treatment_daily plus c_treatment_init exactly on the
first cycle. -/
def costFormula (cfg : Config) (gammaDraw : Nat → ℚ) (c : Nat) : ℚ :=
  (⌊gammaDraw (c - 1)⌋ : ℚ) * cfg.c_treatment_daily +
    (if c = 1 then cfg.c_treatment_init else 0)

/-- Constant draw streams and configurations for the concrete scenarios. -/
def uZero : Nat → ℚ := fun _ => 0

def uOne : Nat → ℚ := fun _ => 1

def gTen : Nat → ℚ := fun _ => 10

def gTenFive : Nat → ℚ := fun k => if k = 0 then 10 else 5

def cfgDeath : Config := { g with max_cycles := 1, prob_death := 1 }

def cfgSurvive : Config := { g with max_cycles := 1, prob_death := 0 }

def cfgBad : Config := { g with max_cycles := 1, prob_death := 2 }

/-- A small configuration for concrete cohort-level witnesses. -/
def cfgSmall : Config := { g with max_cycles := 1, n_patients := 1, number_of_runs := 1 }

theorem treatmentLoop_zero (cfg : Config) (u gd : Nat → ℚ) (rn : Nat) (s : LoopState) :
    treatmentLoop cfg u gd rn 0 s = s := rfl

theorem treatmentLoop_succ (cfg : Config) (u gd : Nat → ℚ) (rn fuel : Nat)
    (s : LoopState) :
    treatmentLoop cfg u gd rn (fuel + 1) s =
      if s.patient.treatment_cycles < cfg.max_cycles ∧ s.patient.state = PState.Alive then
        treatmentLoop cfg u gd rn fuel (treatmentStep cfg u gd rn s)
      else s := rfl

theorem treatmentLoop_dead (cfg : Config) (u gd : Nat → ℚ) (rn fuel : Nat)
    (s : LoopState) (h : s.patient.state = PState.Dead) :
    treatmentLoop cfg u gd rn fuel s = s := by
  cases fuel with
  | zero => rfl
  | succ n => rw [treatmentLoop_succ, if_neg]; simp [h]

theorem treatmentStep_death (cfg : Config) (u gd : Nat → ℚ) (rn : Nat) (s : LoopState)
    (h : u s.k < cfg.prob_death) :
    treatmentStep cfg u gd rn s =
      { patient :=
          { patient_id := s.patient.patient_id
            state := PState.Dead
            treatment_cycles := s.patient.treatment_cycles + 1
            cost := increment_cost cfg
              { s.patient with state := PState.Dead,
                               treatment_cycles := s.patient.treatment_cycles + 1 } (gd s.k)
            utility := increment_utility cfg (gd s.k) cfg.u_treatment }
        now := s.now + gd s.k
        k := s.k + 1
        recs := s.recs ++
          [{ patient_id := s.patient.patient_id
             state := PState.Dead
             treatment_cycles := s.patient.treatment_cycles + 1
             phase := Phase.treatment
             cost := increment_cost cfg
               { s.patient with state := PState.Dead,
                                treatment_cycles := s.patient.treatment_cycles + 1 } (gd s.k)
             utility := increment_utility cfg (gd s.k) cfg.u_treatment
             run_number := rn
             event_time := s.now + gd s.k }] } := by
  unfold treatmentStep
  rw [if_pos h]
  rfl

theorem treatmentStep_survive (cfg : Config) (u gd : Nat → ℚ) (rn : Nat) (s : LoopState)
    (h : ¬ u s.k < cfg.prob_death) :
    treatmentStep cfg u gd rn s =
      { patient :=
          { patient_id := s.patient.patient_id
            state := s.patient.state
            treatment_cycles := s.patient.treatment_cycles + 1
            cost := increment_cost cfg
              { s.patient with treatment_cycles := s.patient.treatment_cycles + 1 } (gd s.k)
            utility := increment_utility cfg (gd s.k) cfg.u_treatment }
        now := s.now + gd s.k
        k := s.k + 1
        recs := s.recs ++
          [{ patient_id := s.patient.patient_id
             state := s.patient.state
             treatment_cycles := s.patient.treatment_cycles + 1
             phase := Phase.treatment
             cost := increment_cost cfg
               { s.patient with treatment_cycles := s.patient.treatment_cycles + 1 } (gd s.k)
             utility := increment_utility cfg (gd s.k) cfg.u_treatment
             run_number := rn
             event_time := s.now + gd s.k }] } := by
  unfold treatmentStep
  rw [if_neg h]
  rfl

theorem sumTo_succ (f : Nat → ℚ) (n : Nat) : sumTo f (n + 1) = sumTo f n + f n := by
  simp [sumTo, List.range_succ]

/-- Claim C1: for every configuration, run number, patient id and every pair
of draw streams, the finished pathway of a fresh patient ends in the abstract
state Dead or Completed: a patient whose state field is still Alive after the
treatment loop always passes through the followup phase, whose row is the
last one emitted, so no patient is ever left in the Treatment state. -/
theorem care_pathway_ends_dead_or_completed (cfg : Config) (u gd : Nat → ℚ)
    (rn pid : Nat) :
    specFinal (set_care_pathway cfg u gd rn (Patient.mk0 pid)) = SpecState.Dead ∨
    specFinal (set_care_pathway cfg u gd rn (Patient.mk0 pid)) = SpecState.Completed := by
  simp only [set_care_pathway]
  by_cases h : (treatmentLoop cfg u gd rn cfg.max_cycles
      { patient := Patient.mk0 pid, now := 0, k := 0, recs := [] }).patient.state =
      PState.Alive
  · right
    rw [if_pos h]
    simp [specFinal, h, lastPhase, save_data]
  · left
    rw [if_neg h]
    have hd : (treatmentLoop cfg u gd rn cfg.max_cycles
        { patient := Patient.mk0 pid, now := 0, k := 0, recs := [] }).patient.state =
        PState.Dead := by
      cases hx : (treatmentLoop cfg u gd rn cfg.max_cycles
          { patient := Patient.mk0 pid, now := 0, k := 0, recs := [] }).patient.state
      · exact absurd hx h
      · rfl
    simp [specFinal, hd]

theorem treatmentLoop_enter (cfg : Config) (u gd : Nat → ℚ) (rn fuel : Nat)
    (s : LoopState) (h1 : s.patient.treatment_cycles < cfg.max_cycles)
    (h2 : s.patient.state = PState.Alive) (hf : 0 < fuel) :
    treatmentLoop cfg u gd rn fuel s =
      treatmentLoop cfg u gd rn (fuel - 1) (treatmentStep cfg u gd rn s) := by
  cases fuel with
  | zero => omega
  | succ n =>
    rw [treatmentLoop_succ, if_pos ⟨h1, h2⟩]
    rfl

theorem pathway_dies_first (cfg : Config) (u gd : Nat → ℚ) (rn pid : Nat)
    (hmax : 0 < cfg.max_cycles) (hd : u 0 < cfg.prob_death) :
    set_care_pathway cfg u gd rn (Patient.mk0 pid) =
      { patient :=
          { patient_id := pid
            state := PState.Dead
            treatment_cycles := 1
            cost := increment_cost cfg
              { patient_id := pid, state := PState.Dead, treatment_cycles := 1,
                cost := 0, utility := 0 } (gd 0)
            utility := increment_utility cfg (gd 0) cfg.u_treatment }
        now := gd 0
        recs :=
          [{ patient_id := pid
             state := PState.Dead
             treatment_cycles := 1
             phase := Phase.treatment
             cost := increment_cost cfg
               { patient_id := pid, state := PState.Dead, treatment_cycles := 1,
                 cost := 0, utility := 0 } (gd 0)
             utility := increment_utility cfg (gd 0) cfg.u_treatment
             run_number := rn
             event_time := gd 0 }] } := by
  simp only [set_care_pathway]
  rw [treatmentLoop_enter cfg u gd rn cfg.max_cycles _ hmax rfl hmax,
    treatmentStep_death cfg u gd rn _ hd, treatmentLoop_dead _ _ _ _ _ _ rfl]
  simp [Patient.mk0]

theorem pathway_survives_single (cfg : Config) (u gd : Nat → ℚ) (rn pid : Nat)
    (hmax : cfg.max_cycles = 1) (hs : ¬ u 0 < cfg.prob_death) :
    set_care_pathway cfg u gd rn (Patient.mk0 pid) =
      { patient :=
          { patient_id := pid
            state := PState.Alive
            treatment_cycles := 1
            cost := cfg.c_followup
            utility := increment_utility cfg (gd 1) cfg.u_followup }
        now := gd 0 + gd 1
        recs :=
          [{ patient_id := pid
             state := PState.Alive
             treatment_cycles := 1
             phase := Phase.treatment
             cost := increment_cost cfg
               { patient_id := pid, state := PState.Alive, treatment_cycles := 1,
                 cost := 0, utility := 0 } (gd 0)
             utility := increment_utility cfg (gd 0) cfg.u_treatment
             run_number := rn
             event_time := gd 0 },
           { patient_id := pid
             state := PState.Alive
             treatment_cycles := 1
             phase := Phase.followup
             cost := cfg.c_followup
             utility := increment_utility cfg (gd 1) cfg.u_followup
             run_number := rn
             event_time := gd 0 + gd 1 }] } := by
  simp only [set_care_pathway]
  rw [treatmentLoop_enter cfg u gd rn cfg.max_cycles _ (by simp [Patient.mk0, hmax]) rfl (by omega),
    treatmentStep_survive cfg u gd rn _ hs, hmax]
  norm_num [treatmentLoop_zero, Patient.mk0, save_data]

/-- Claim C5: in the concrete death scenario (max_cycles 1, prob_death 1,
uniform draw 0, Gamma draw 10) the pathway of patient 1 in run 1 produces
exactly one treatment row with treatment_cycles 1, cost 10 * 250 + 5000,
utility 10 * (0.7 / 365.2422), event time 10 and state Dead. -/
theorem death_scenario_record :
    set_care_pathway cfgDeath uZero gTen 1 (Patient.mk0 1) =
      { patient :=
          { patient_id := 1
            state := PState.Dead
            treatment_cycles := 1
            cost := 10 * 250 + 5000
            utility := 10 * ((7/10) / (3652422/10000)) }
        now := 10
        recs :=
          [{ patient_id := 1
             state := PState.Dead
             treatment_cycles := 1
             phase := Phase.treatment
             cost := 10 * 250 + 5000
             utility := 10 * ((7/10) / (3652422/10000))
             run_number := 1
             event_time := 10 }] } := by
  rw [pathway_dies_first cfgDeath uZero gTen 1 1 (by norm_num [cfgDeath, g])
    (by norm_num [cfgDeath, g, uZero])]
  norm_num [cfgDeath, g, gTen, uZero, increment_cost, increment_utility, truncInt]

/-- Claim C6: in the concrete survival scenario (max_cycles 1, prob_death 0,
uniform draw 1, Gamma draws 10 then 5) the pathway of patient 1 in run 1
produces exactly two rows: a treatment row with the same cost formula as the
death scenario, then a followup row whose cost is the fixed lumpsum 3500
(replacing the daily formula) and whose utility is 5 * (0.8 / 365.2422),
and the patient finishes in the abstract state Completed. -/
theorem survival_scenario_records :
    (set_care_pathway cfgSurvive uOne gTenFive 1 (Patient.mk0 1)).recs =
      [{ patient_id := 1
         state := PState.Alive
         treatment_cycles := 1
         phase := Phase.treatment
         cost := 10 * 250 + 5000
         utility := 10 * ((7/10) / (3652422/10000))
         run_number := 1
         event_time := 10 },
       { patient_id := 1
         state := PState.Alive
         treatment_cycles := 1
         phase := Phase.followup
         cost := 3500
         utility := 5 * ((4/5) / (3652422/10000))
         run_number := 1
         event_time := 15 }] ∧
    specFinal (set_care_pathway cfgSurvive uOne gTenFive 1 (Patient.mk0 1)) =
      SpecState.Completed := by
  rw [pathway_survives_single cfgSurvive uOne gTenFive 1 1 (by norm_num [cfgSurvive, g])
    (by norm_num [cfgSurvive, g, uOne])]
  constructor
  · norm_num [cfgSurvive, g, gTenFive, uOne, increment_cost, increment_utility, truncInt]
  · norm_num [specFinal, lastPhase]

/-- Claim C2 counterexample: the source contains no configuration
validation, so with prob_death = 2 (outside the stated bound [0,1]) the
simulation does not fail before any patient is simulated: the patient is
simulated with the bad value and dies in cycle 1 producing a row. -/
theorem no_validation_counterexample :
    (set_care_pathway cfgBad (fun _ => 1/2) gTen 1 (Patient.mk0 1)).recs.length = 1 ∧
    (set_care_pathway cfgBad (fun _ => 1/2) gTen 1 (Patient.mk0 1)).patient.state =
      PState.Dead := by
  rw [pathway_dies_first cfgBad (fun _ => 1/2) gTen 1 1 (by norm_num [cfgBad, g])
    (by norm_num [cfgBad, g])]
  exact ⟨rfl, rfl⟩

/-- Claim C2 (amended): the source performs no validation of the
configuration: a pathway given an out-of-range prob_death = 2 still runs,
and since every Uniform(0,1) draw is below 2, every patient dies in cycle 1
and produces one treatment row rather than any error being raised. -/
theorem no_validation_runs_with_bad_value (cfg : Config) (u gd : Nat → ℚ)
    (rn pid : Nat) (hp : cfg.prob_death = 2) (hmax : 0 < cfg.max_cycles)
    (hu : ∀ k, 0 ≤ u k ∧ u k < 1) :
    (set_care_pathway cfg u gd rn (Patient.mk0 pid)).patient.state = PState.Dead ∧
    (set_care_pathway cfg u gd rn (Patient.mk0 pid)).recs.map recPat =
      [(Phase.treatment, 1)] := by
  have hd : u 0 < cfg.prob_death := by
    have h2 := (hu 0).2
    rw [hp]
    linarith
  rw [pathway_dies_first cfg u gd rn pid hmax hd]
  exact ⟨rfl, by simp [recPat]⟩

theorem treatmentLoop_no_death (cfg : Config) (u gd : Nat → ℚ) (rn : Nat)
    (hp : cfg.prob_death = 0) (hu : ∀ k, 0 ≤ u k) :
    ∀ (fuel : Nat) (s : LoopState), s.patient.state = PState.Alive →
      (∀ r ∈ s.recs, r.state = PState.Alive) →
      ((treatmentLoop cfg u gd rn fuel s).patient.state = PState.Alive ∧
       ∀ r ∈ (treatmentLoop cfg u gd rn fuel s).recs, r.state = PState.Alive) := by
  intro fuel
  induction fuel with
  | zero => intro s h1 h2; exact ⟨h1, h2⟩
  | succ n ih =>
    intro s h1 h2
    rw [treatmentLoop_succ]
    by_cases hg : s.patient.treatment_cycles < cfg.max_cycles ∧
        s.patient.state = PState.Alive
    · rw [if_pos hg]
      have hnd : ¬ u s.k < cfg.prob_death := by
        rw [hp]
        exact not_lt.2 (hu s.k)
      refine ih (treatmentStep cfg u gd rn s) ?_ ?_
      · rw [treatmentStep_survive cfg u gd rn s hnd]
        exact h1
      · rw [treatmentStep_survive cfg u gd rn s hnd]
        intro r hr
        rcases List.mem_append.1 hr with hmem | hmem
        · exact h2 r hmem
        · rw [List.mem_singleton.1 hmem]
          exact h1
    · rw [if_neg hg]
      exact ⟨h1, h2⟩

theorem treatmentLoop_all_cycles (cfg : Config) (u gd : Nat → ℚ) (rn : Nat)
    (hp : cfg.prob_death = 0) (hu : ∀ k, 0 ≤ u k) :
    ∀ (fuel : Nat) (s : LoopState), s.patient.state = PState.Alive →
      cfg.max_cycles ≤ s.patient.treatment_cycles + fuel →
      s.patient.treatment_cycles ≤ cfg.max_cycles →
      (treatmentLoop cfg u gd rn fuel s).patient.treatment_cycles = cfg.max_cycles := by
  intro fuel
  induction fuel with
  | zero =>
    intro s h1 h2 h3
    rw [treatmentLoop_zero]
    omega
  | succ n ih =>
    intro s h1 h2 h3
    rw [treatmentLoop_succ]
    by_cases hlt : s.patient.treatment_cycles < cfg.max_cycles
    · rw [if_pos ⟨hlt, h1⟩]
      have hnd : ¬ u s.k < cfg.prob_death := by
        rw [hp]
        exact not_lt.2 (hu s.k)
      rw [treatmentStep_survive cfg u gd rn s hnd]
      refine ih _ h1 ?_ ?_
      · show cfg.max_cycles ≤ s.patient.treatment_cycles + 1 + n
        omega
      · show s.patient.treatment_cycles + 1 ≤ cfg.max_cycles
        omega
    · rw [if_neg (fun hc => hlt hc.1)]
      omega

/-- Claim C4: boundary behaviour of the death test, for Uniform(0,1) draws
(all in the half-open interval from 0 to 1).  With prob_death = 0 a patient
is never Dead: it stays Alive through all max_cycles cycles, no row ever
carries the Dead state, and the pathway ends with a followup row.  With
prob_death = 1 (and at least one configured cycle) the patient dies on
cycle 1 and emits exactly one treatment-phase row. -/
theorem boundary_prob_death (cfg0 cfg1 : Config) (u gd : Nat → ℚ) (rn pid : Nat)
    (h0 : cfg0.prob_death = 0) (h1 : cfg1.prob_death = 1) (hmax1 : 0 < cfg1.max_cycles)
    (hu : ∀ k, 0 ≤ u k ∧ u k < 1) :
    ((set_care_pathway cfg0 u gd rn (Patient.mk0 pid)).patient.state = PState.Alive ∧
     (set_care_pathway cfg0 u gd rn (Patient.mk0 pid)).patient.treatment_cycles =
       cfg0.max_cycles ∧
     (∀ r ∈ (set_care_pathway cfg0 u gd rn (Patient.mk0 pid)).recs,
       r.state = PState.Alive) ∧
     lastPhase (set_care_pathway cfg0 u gd rn (Patient.mk0 pid)).recs =
       some Phase.followup) ∧
    ((set_care_pathway cfg1 u gd rn (Patient.mk0 pid)).patient.state = PState.Dead ∧
     (set_care_pathway cfg1 u gd rn (Patient.mk0 pid)).patient.treatment_cycles = 1 ∧
     (set_care_pathway cfg1 u gd rn (Patient.mk0 pid)).recs.map recPat =
       [(Phase.treatment, 1)]) := by
  constructor
  · have hu0 : ∀ k, 0 ≤ u k := fun k => (hu k).1
    have hloop := treatmentLoop_no_death cfg0 u gd rn h0 hu0 cfg0.max_cycles
      { patient := Patient.mk0 pid, now := 0, k := 0, recs := [] } rfl (by simp)
    have hcyc := treatmentLoop_all_cycles cfg0 u gd rn h0 hu0 cfg0.max_cycles
      { patient := Patient.mk0 pid, now := 0, k := 0, recs := [] } rfl
      (by simp [Patient.mk0]) (by simp [Patient.mk0])
    simp only [set_care_pathway]
    rw [if_pos hloop.1]
    refine ⟨hloop.1, hcyc, ?_, ?_⟩
    · intro r hr
      rcases List.mem_append.1 hr with hmem | hmem
      · exact hloop.2 r hmem
      · rw [List.mem_singleton.1 hmem]
        exact hloop.1
    · simp [lastPhase, save_data]
  · have hd : u 0 < cfg1.prob_death := by
      have h2 := (hu 0).2
      rw [h1]
      exact h2
    rw [pathway_dies_first cfg1 u gd rn pid hmax1 hd]
    exact ⟨rfl, rfl, by simp [recPat]⟩

theorem treatmentLoop_pattern (cfg : Config) (u gd : Nat → ℚ) (rn : Nat) :
    ∀ (fuel : Nat) (s : LoopState),
      s.recs.map recPat = cyclePattern s.patient.treatment_cycles →
      (treatmentLoop cfg u gd rn fuel s).recs.map recPat =
        cyclePattern (treatmentLoop cfg u gd rn fuel s).patient.treatment_cycles := by
  intro fuel
  induction fuel with
  | zero => intro s h; exact h
  | succ n ih =>
    intro s h
    rw [treatmentLoop_succ]
    by_cases hg : s.patient.treatment_cycles < cfg.max_cycles ∧
        s.patient.state = PState.Alive
    · rw [if_pos hg]
      refine ih _ ?_
      by_cases hdeath : u s.k < cfg.prob_death
      · rw [treatmentStep_death cfg u gd rn s hdeath]
        show (s.recs ++ [_]).map recPat = cyclePattern (s.patient.treatment_cycles + 1)
        rw [List.map_append, h]
        simp [recPat, cyclePattern, List.range_succ]
      · rw [treatmentStep_survive cfg u gd rn s hdeath]
        show (s.recs ++ [_]).map recPat = cyclePattern (s.patient.treatment_cycles + 1)
        rw [List.map_append, h]
        simp [recPat, cyclePattern, List.range_succ]
    · rw [if_neg hg]
      exact h

/-- Claim C7: for every configuration, draw streams, run number and patient
id, the rows of one pathway are exactly one treatment row per completed
cycle 1 .. n (n the final treatment_cycles; the n-th row is the death row
when the patient died) followed by exactly one followup row (tagged with
cycle count n) when the patient is still Alive, and nothing after it: one
row per phase boundary reached, none after Dead or Completed. -/
theorem one_record_per_phase_boundary (cfg : Config) (u gd : Nat → ℚ)
    (rn pid : Nat) :
    (set_care_pathway cfg u gd rn (Patient.mk0 pid)).recs.map recPat =
      cyclePattern
        (set_care_pathway cfg u gd rn (Patient.mk0 pid)).patient.treatment_cycles ++
      (if (set_care_pathway cfg u gd rn (Patient.mk0 pid)).patient.state = PState.Alive
       then [(Phase.followup,
         (set_care_pathway cfg u gd rn (Patient.mk0 pid)).patient.treatment_cycles)]
       else []) := by
  have hpat := treatmentLoop_pattern cfg u gd rn cfg.max_cycles
    { patient := Patient.mk0 pid, now := 0, k := 0, recs := [] }
    (by simp [Patient.mk0, cyclePattern])
  simp only [set_care_pathway]
  by_cases hst : (treatmentLoop cfg u gd rn cfg.max_cycles
      { patient := Patient.mk0 pid, now := 0, k := 0, recs := [] }).patient.state =
      PState.Alive
  · rw [if_pos hst]
    simp [save_data, recPat, hpat, hst]
  · rw [if_neg hst]
    simp [hpat, hst]

theorem treatmentLoop_cycles_le_max (cfg : Config) (u gd : Nat → ℚ) (rn : Nat) :
    ∀ (fuel : Nat) (s : LoopState),
      s.patient.treatment_cycles ≤ cfg.max_cycles →
      (∀ r ∈ s.recs, r.treatment_cycles ≤ cfg.max_cycles) →
      ((treatmentLoop cfg u gd rn fuel s).patient.treatment_cycles ≤ cfg.max_cycles ∧
       ∀ r ∈ (treatmentLoop cfg u gd rn fuel s).recs,
         r.treatment_cycles ≤ cfg.max_cycles) := by
  intro fuel
  induction fuel with
  | zero => intro s h1 h2; exact ⟨h1, h2⟩
  | succ n ih =>
    intro s h1 h2
    rw [treatmentLoop_succ]
    by_cases hg : s.patient.treatment_cycles < cfg.max_cycles ∧
        s.patient.state = PState.Alive
    · rw [if_pos hg]
      have hlt := hg.1
      by_cases hdeath : u s.k < cfg.prob_death
      · rw [treatmentStep_death cfg u gd rn s hdeath]
        refine ih _ ?_ ?_
        · show s.patient.treatment_cycles + 1 ≤ cfg.max_cycles
          omega
        · intro r hr
          rcases List.mem_append.1 hr with hmem | hmem
          · exact h2 r hmem
          · rw [List.mem_singleton.1 hmem]
            show s.patient.treatment_cycles + 1 ≤ cfg.max_cycles
            omega
      · rw [treatmentStep_survive cfg u gd rn s hdeath]
        refine ih _ ?_ ?_
        · show s.patient.treatment_cycles + 1 ≤ cfg.max_cycles
          omega
        · intro r hr
          rcases List.mem_append.1 hr with hmem | hmem
          · exact h2 r hmem
          · rw [List.mem_singleton.1 hmem]
            show s.patient.treatment_cycles + 1 ≤ cfg.max_cycles
            omega
    · rw [if_neg hg]
      exact ⟨h1, h2⟩

/-- Claim C8: for every configuration with max_cycles > 0, every pair of
draw streams, run number and patient id, the treatment_cycles value stored
in every row of the pathway, and in the final patient, is at most
max_cycles. -/
theorem treatment_cycles_le_max (cfg : Config) (u gd : Nat → ℚ) (rn pid : Nat)
    (hmax : 0 < cfg.max_cycles) :
    (∀ r ∈ (set_care_pathway cfg u gd rn (Patient.mk0 pid)).recs,
      r.treatment_cycles ≤ cfg.max_cycles) ∧
    (set_care_pathway cfg u gd rn (Patient.mk0 pid)).patient.treatment_cycles ≤
      cfg.max_cycles := by
  have hloop := treatmentLoop_cycles_le_max cfg u gd rn cfg.max_cycles
    { patient := Patient.mk0 pid, now := 0, k := 0, recs := [] }
    (by simp [Patient.mk0]) (by simp)
  simp only [set_care_pathway]
  by_cases hst : (treatmentLoop cfg u gd rn cfg.max_cycles
      { patient := Patient.mk0 pid, now := 0, k := 0, recs := [] }).patient.state =
      PState.Alive
  · rw [if_pos hst]
    constructor
    · intro r hr
      rcases List.mem_append.1 hr with hmem | hmem
      · exact hloop.2 r hmem
      · rw [List.mem_singleton.1 hmem]
        exact hloop.1
    · exact hloop.1
  · rw [if_neg hst]
    exact ⟨hloop.2, hloop.1⟩

theorem increment_cost_formula (cfg : Config) (p : Patient) (d : ℚ) (hd : 0 ≤ d) :
    increment_cost cfg p d = (⌊d⌋ : ℚ) * cfg.c_treatment_daily +
      (if p.treatment_cycles = 1 then cfg.c_treatment_init else 0) := by
  unfold increment_cost truncInt
  rw [if_pos hd]
  by_cases h : p.treatment_cycles = 1
  · rw [if_pos h, if_pos h]
  · rw [if_neg h, if_neg h, add_zero]

theorem treatmentLoop_cost (cfg : Config) (u gd : Nat → ℚ) (rn : Nat)
    (hg : ∀ k, 0 ≤ gd k) :
    ∀ (fuel : Nat) (s : LoopState), s.k = s.patient.treatment_cycles →
      (∀ r ∈ s.recs, r.phase = Phase.treatment →
        r.cost = costFormula cfg gd r.treatment_cycles) →
      ((treatmentLoop cfg u gd rn fuel s).k =
         (treatmentLoop cfg u gd rn fuel s).patient.treatment_cycles ∧
       ∀ r ∈ (treatmentLoop cfg u gd rn fuel s).recs, r.phase = Phase.treatment →
         r.cost = costFormula cfg gd r.treatment_cycles) := by
  intro fuel
  induction fuel with
  | zero => intro s h1 h2; exact ⟨h1, h2⟩
  | succ n ih =>
    intro s h1 h2
    rw [treatmentLoop_succ]
    by_cases hgd : s.patient.treatment_cycles < cfg.max_cycles ∧
        s.patient.state = PState.Alive
    · rw [if_pos hgd]
      by_cases hdeath : u s.k < cfg.prob_death
      · rw [treatmentStep_death cfg u gd rn s hdeath]
        refine ih _ ?_ ?_
        · show s.k + 1 = s.patient.treatment_cycles + 1
          omega
        · intro r hr
          rcases List.mem_append.1 hr with hmem | hmem
          · exact h2 r hmem
          · rw [List.mem_singleton.1 hmem]
            intro _
            show increment_cost cfg
              { s.patient with state := PState.Dead,
                               treatment_cycles := s.patient.treatment_cycles + 1 }
              (gd s.k) = costFormula cfg gd (s.patient.treatment_cycles + 1)
            rw [increment_cost_formula cfg _ _ (hg s.k)]
            simp [costFormula, h1]
      · rw [treatmentStep_survive cfg u gd rn s hdeath]
        refine ih _ ?_ ?_
        · show s.k + 1 = s.patient.treatment_cycles + 1
          omega
        · intro r hr
          rcases List.mem_append.1 hr with hmem | hmem
          · exact h2 r hmem
          · rw [List.mem_singleton.1 hmem]
            intro _
            show increment_cost cfg
              { s.patient with treatment_cycles := s.patient.treatment_cycles + 1 }
              (gd s.k) = costFormula cfg gd (s.patient.treatment_cycles + 1)
            rw [increment_cost_formula cfg _ _ (hg s.k)]
            simp [costFormula, h1]
    · rw [if_neg hgd]
      exact ⟨h1, h2⟩

/-- Claim C3: when every Gamma draw is nonnegative (Gamma durations always
are), every treatment-phase row of a pathway carries the cost increment
floor(d) * c_treatment_daily, where d is the Gamma draw elapsed for that
cycle (the draw of index treatment_cycles - 1 of the patient's stream),
plus c_treatment_init exactly when the row belongs to the patient's first
cycle (treatment_cycles = 1) and for no other cycle. -/
theorem cost_increment_formula_per_record (cfg : Config) (u gd : Nat → ℚ)
    (rn pid : Nat) (hg : ∀ k, 0 ≤ gd k) :
    ∀ r ∈ (set_care_pathway cfg u gd rn (Patient.mk0 pid)).recs,
      r.phase = Phase.treatment →
      r.cost = (⌊gd (r.treatment_cycles - 1)⌋ : ℚ) * cfg.c_treatment_daily +
        (if r.treatment_cycles = 1 then cfg.c_treatment_init else 0) := by
  have hloop := treatmentLoop_cost cfg u gd rn hg cfg.max_cycles
    { patient := Patient.mk0 pid, now := 0, k := 0, recs := [] } rfl (by simp)
  simp only [set_care_pathway]
  by_cases hst : (treatmentLoop cfg u gd rn cfg.max_cycles
      { patient := Patient.mk0 pid, now := 0, k := 0, recs := [] }).patient.state =
      PState.Alive
  · rw [if_pos hst]
    intro r hr hph
    rcases List.mem_append.1 hr with hmem | hmem
    · have := hloop.2 r hmem hph
      simpa [costFormula] using this
    · rw [List.mem_singleton.1 hmem] at hph
      simp [save_data] at hph
  · rw [if_neg hst]
    intro r hr hph
    have := hloop.2 r hr hph
    simpa [costFormula] using this

theorem treatmentLoop_time (cfg : Config) (u gd : Nat → ℚ) (rn : Nat) :
    ∀ (fuel : Nat) (s : LoopState), s.now = sumTo gd s.k →
      s.recs.length = s.k →
      s.recs.map OutcomeRecord.event_time =
        (List.range s.k).map (fun j => sumTo gd (j + 1)) →
      ((treatmentLoop cfg u gd rn fuel s).now =
         sumTo gd (treatmentLoop cfg u gd rn fuel s).k ∧
       (treatmentLoop cfg u gd rn fuel s).recs.length =
         (treatmentLoop cfg u gd rn fuel s).k ∧
       (treatmentLoop cfg u gd rn fuel s).recs.map OutcomeRecord.event_time =
         (List.range (treatmentLoop cfg u gd rn fuel s).k).map
           (fun j => sumTo gd (j + 1))) := by
  intro fuel
  induction fuel with
  | zero => intro s h1 h2 h3; exact ⟨h1, h2, h3⟩
  | succ n ih =>
    intro s h1 h2 h3
    rw [treatmentLoop_succ]
    by_cases hg : s.patient.treatment_cycles < cfg.max_cycles ∧
        s.patient.state = PState.Alive
    · rw [if_pos hg]
      by_cases hdeath : u s.k < cfg.prob_death
      · rw [treatmentStep_death cfg u gd rn s hdeath]
        refine ih _ ?_ ?_ ?_
        · show s.now + gd s.k = sumTo gd (s.k + 1)
          rw [h1, sumTo_succ]
        · show (s.recs ++ [_]).length = s.k + 1
          simp [h2]
        · show (s.recs ++ [_]).map OutcomeRecord.event_time =
            (List.range (s.k + 1)).map (fun j => sumTo gd (j + 1))
          rw [List.map_append, h3, List.range_succ, List.map_append]
          simp [sumTo_succ, h1]
      · rw [treatmentStep_survive cfg u gd rn s hdeath]
        refine ih _ ?_ ?_ ?_
        · show s.now + gd s.k = sumTo gd (s.k + 1)
          rw [h1, sumTo_succ]
        · show (s.recs ++ [_]).length = s.k + 1
          simp [h2]
        · show (s.recs ++ [_]).map OutcomeRecord.event_time =
            (List.range (s.k + 1)).map (fun j => sumTo gd (j + 1))
          rw [List.map_append, h3, List.range_succ, List.map_append]
          simp [sumTo_succ, h1]
    · rw [if_neg hg]
      exact ⟨h1, h2, h3⟩

/-- Claim C10: every patient starts its pathway at simulated time 0 and only
ever elapses its own sampled durations, one Gamma draw per row, so the
event_time of the j-th row of a patient (0-based) is the sum of the first
j + 1 draws of that patient's Gamma stream, and the patient's final local
clock is the sum of all the draws it consumed (one per row). -/
theorem event_time_is_cumulative_sum (cfg : Config) (u gd : Nat → ℚ)
    (rn pid : Nat) :
    (set_care_pathway cfg u gd rn (Patient.mk0 pid)).recs.map
        OutcomeRecord.event_time =
      (List.range (set_care_pathway cfg u gd rn (Patient.mk0 pid)).recs.length).map
        (fun j => sumTo gd (j + 1)) ∧
    (set_care_pathway cfg u gd rn (Patient.mk0 pid)).now =
      sumTo gd (set_care_pathway cfg u gd rn (Patient.mk0 pid)).recs.length := by
  obtain ⟨ht, hlen, hmap⟩ := treatmentLoop_time cfg u gd rn cfg.max_cycles
    { patient := Patient.mk0 pid, now := 0, k := 0, recs := [] }
    (by simp [sumTo]) rfl (by simp)
  simp only [set_care_pathway]
  by_cases hst : (treatmentLoop cfg u gd rn cfg.max_cycles
      { patient := Patient.mk0 pid, now := 0, k := 0, recs := [] }).patient.state =
      PState.Alive
  · rw [if_pos hst]
    constructor
    · show (_ ++ [_]).map OutcomeRecord.event_time =
        (List.range (_ ++ [_]).length).map (fun j => sumTo gd (j + 1))
      rw [List.map_append, hmap, List.length_append, hlen]
      simp [save_data, List.range_succ, sumTo_succ, ht]
    · show _ + gd _ = sumTo gd (_ ++ [_]).length
      rw [List.length_append, hlen, ht]
      simp [sumTo_succ]
  · rw [if_neg hst]
    exact ⟨by rw [hlen]; exact hmap, by rw [hlen]; exact ht⟩

theorem treatmentLoop_run_number (cfg : Config) (u gd : Nat → ℚ) (rn : Nat) :
    ∀ (fuel : Nat) (s : LoopState), (∀ r ∈ s.recs, r.run_number = rn) →
      ∀ r ∈ (treatmentLoop cfg u gd rn fuel s).recs, r.run_number = rn := by
  intro fuel
  induction fuel with
  | zero => intro s h; exact h
  | succ n ih =>
    intro s h
    rw [treatmentLoop_succ]
    by_cases hg : s.patient.treatment_cycles < cfg.max_cycles ∧
        s.patient.state = PState.Alive
    · rw [if_pos hg]
      refine ih _ ?_
      by_cases hdeath : u s.k < cfg.prob_death
      · rw [treatmentStep_death cfg u gd rn s hdeath]
        intro r hr
        rcases List.mem_append.1 hr with hmem | hmem
        · exact h r hmem
        · rw [List.mem_singleton.1 hmem]
      · rw [treatmentStep_survive cfg u gd rn s hdeath]
        intro r hr
        rcases List.mem_append.1 hr with hmem | hmem
        · exact h r hmem
        · rw [List.mem_singleton.1 hmem]
    · rw [if_neg hg]
      exact h

theorem pathway_run_number (cfg : Config) (u gd : Nat → ℚ) (rn : Nat)
    (p : Patient) :
    ∀ r ∈ (set_care_pathway cfg u gd rn p).recs, r.run_number = rn := by
  have hloop := treatmentLoop_run_number cfg u gd rn cfg.max_cycles
    { patient := p, now := 0, k := 0, recs := [] } (by simp)
  simp only [set_care_pathway]
  by_cases hst : (treatmentLoop cfg u gd rn cfg.max_cycles
      { patient := p, now := 0, k := 0, recs := [] }).patient.state = PState.Alive
  · rw [if_pos hst]
    intro r hr
    rcases List.mem_append.1 hr with hmem | hmem
    · exact hloop r hmem
    · rw [List.mem_singleton.1 hmem]
      rfl
  · rw [if_neg hst]
    exact hloop

theorem treatmentLoop_alive_or_recs_ne_nil (cfg : Config) (u gd : Nat → ℚ)
    (rn : Nat) :
    ∀ (fuel : Nat) (s : LoopState),
      (s.patient.state = PState.Alive ∨ s.recs ≠ []) →
      ((treatmentLoop cfg u gd rn fuel s).patient.state = PState.Alive ∨
       (treatmentLoop cfg u gd rn fuel s).recs ≠ []) := by
  intro fuel
  induction fuel with
  | zero => intro s h; exact h
  | succ n ih =>
    intro s h
    rw [treatmentLoop_succ]
    by_cases hg : s.patient.treatment_cycles < cfg.max_cycles ∧
        s.patient.state = PState.Alive
    · rw [if_pos hg]
      refine ih _ (Or.inr ?_)
      by_cases hdeath : u s.k < cfg.prob_death
      · rw [treatmentStep_death cfg u gd rn s hdeath]
        simp
      · rw [treatmentStep_survive cfg u gd rn s hdeath]
        simp
    · rw [if_neg hg]
      exact h

theorem pathway_recs_ne_nil (cfg : Config) (u gd : Nat → ℚ) (rn pid : Nat) :
    (set_care_pathway cfg u gd rn (Patient.mk0 pid)).recs ≠ [] := by
  have h := treatmentLoop_alive_or_recs_ne_nil cfg u gd rn cfg.max_cycles
    { patient := Patient.mk0 pid, now := 0, k := 0, recs := [] } (Or.inl rfl)
  simp only [set_care_pathway]
  by_cases hst : (treatmentLoop cfg u gd rn cfg.max_cycles
      { patient := Patient.mk0 pid, now := 0, k := 0, recs := [] }).patient.state =
      PState.Alive
  · rw [if_pos hst]
    simp
  · rw [if_neg hst]
    rcases h with h | h
    · exact absurd h hst
    · exact h

/-- Claim C9: generate_patients increments the model's run_number (the
constructor argument) before creating any patient, so every row of one run
of the model carries run_number rn + 1, where rn is the value passed to the
Model constructor; since the driver loop passes run = 0 .. number_of_runs-1,
every recorded run_number lies between 1 and number_of_runs, and (as soon as
there is at least one patient) every value 1 .. number_of_runs is recorded. -/
theorem run_numbers_offset_by_one (cfg : Config) (uD gD : Nat → Nat → ℚ)
    (uT gT : Nat → Nat → Nat → ℚ) (rn : Nat) :
    (∀ r ∈ runModel cfg uD gD rn, r.run_number = rn + 1) ∧
    (∀ r ∈ driverLoop cfg uT gT,
      1 ≤ r.run_number ∧ r.run_number ≤ cfg.number_of_runs) ∧
    (0 < cfg.n_patients → ∀ m, m < cfg.number_of_runs →
      ∃ r ∈ driverLoop cfg uT gT, r.run_number = m + 1) := by
  have key : ∀ (cfg2 : Config) (uD2 gD2 : Nat → Nat → ℚ) (rn2 : Nat),
      ∀ r ∈ runModel cfg2 uD2 gD2 rn2, r.run_number = rn2 + 1 := by
    intro cfg2 uD2 gD2 rn2 r hr
    simp only [runModel, List.mem_flatMap] at hr
    obtain ⟨i, hi, hri⟩ := hr
    exact pathway_run_number cfg2 (uD2 (i + 1)) (gD2 (i + 1)) (rn2 + 1)
      (Patient.mk0 (i + 1)) r hri
  refine ⟨key cfg uD gD rn, ?_, ?_⟩
  · intro r hr
    simp only [driverLoop, List.mem_flatMap, List.mem_range] at hr
    obtain ⟨m, hm, hrm⟩ := hr
    have := key cfg (uT m) (gT m) m r hrm
    omega
  · intro hp m hm
    have hne := pathway_recs_ne_nil cfg (uT m 1) (gT m 1) (m + 1) 1
    refine ⟨(set_care_pathway cfg (uT m 1) (gT m 1) (m + 1) (Patient.mk0 1)).recs.head
      hne, ?_, ?_⟩
    · simp only [driverLoop, List.mem_flatMap]
      refine ⟨m, List.mem_range.2 hm, ?_⟩
      simp only [runModel, List.mem_flatMap]
      exact ⟨0, List.mem_range.2 hp, List.head_mem hne⟩
    · exact pathway_run_number cfg (uT m 1) (gT m 1) (m + 1) (Patient.mk0 1) _
        (List.head_mem hne)

theorem runModel_small (uD gD : Nat → Nat → ℚ) (rn : Nat) :
    runModel cfgSmall uD gD rn =
      (set_care_pathway cfgSmall (uD 1) (gD 1) (rn + 1) (Patient.mk0 1)).recs := by
  show (List.range 1).flatMap _ = _
  rw [show List.range 1 = [0] by rfl]
  simp

theorem driverLoop_small (uT gT : Nat → Nat → Nat → ℚ) :
    driverLoop cfgSmall uT gT =
      (set_care_pathway cfgSmall (uT 0 1) (gT 0 1) 1 (Patient.mk0 1)).recs := by
  show (List.range 1).flatMap _ = _
  rw [show List.range 1 = [0] by rfl]
  simp [runModel_small]

/-- Witness for claim C9 at a one-patient, one-run configuration. -/
theorem run_numbers_offset_by_one_witness :
    (runModel cfgSmall (fun _ _ => 0) (fun _ _ => 10) 0).headI.run_number = 0 + 1 ∧
    (1 ≤ (driverLoop cfgSmall (fun _ _ _ => 0) (fun _ _ _ => 10)).headI.run_number ∧
     (driverLoop cfgSmall (fun _ _ _ => 0) (fun _ _ _ => 10)).headI.run_number ≤
       cfgSmall.number_of_runs) ∧
    (∃ r ∈ driverLoop cfgSmall (fun _ _ _ => 0) (fun _ _ _ => 10),
      r.run_number = 0 + 1) :=
  ⟨(run_numbers_offset_by_one cfgSmall (fun _ _ => 0) (fun _ _ => 10)
      (fun _ _ _ => 0) (fun _ _ _ => 10) 0).1 _
      (by
        rw [runModel_small, pathway_dies_first cfgSmall _ _ 1 1
          (by norm_num [cfgSmall, g]) (by norm_num [cfgSmall, g])]
        exact List.mem_singleton.2 rfl),
   (run_numbers_offset_by_one cfgSmall (fun _ _ => 0) (fun _ _ => 10)
      (fun _ _ _ => 0) (fun _ _ _ => 10) 0).2.1 _
      (by
        rw [driverLoop_small, pathway_dies_first cfgSmall _ _ 1 1
          (by norm_num [cfgSmall, g]) (by norm_num [cfgSmall, g])]
        exact List.mem_singleton.2 rfl),
   (run_numbers_offset_by_one cfgSmall (fun _ _ => 0) (fun _ _ => 10)
      (fun _ _ _ => 0) (fun _ _ _ => 10) 0).2.2
      (by norm_num [cfgSmall, g]) 0 (by norm_num [cfgSmall, g])⟩

/-- Witness for claim C8 at the concrete death scenario. -/
theorem treatment_cycles_le_max_witness :
    (set_care_pathway cfgDeath uZero gTen 1 (Patient.mk0 1)).recs.headI.treatment_cycles ≤
      cfgDeath.max_cycles ∧
    (set_care_pathway cfgDeath uZero gTen 1 (Patient.mk0 1)).patient.treatment_cycles ≤
      cfgDeath.max_cycles :=
  ⟨(treatment_cycles_le_max cfgDeath uZero gTen 1 1 (by norm_num [cfgDeath, g])).1 _
      (by
        rw [pathway_dies_first cfgDeath uZero gTen 1 1 (by norm_num [cfgDeath, g])
          (by norm_num [cfgDeath, g, uZero])]
        exact List.mem_singleton.2 rfl),
   (treatment_cycles_le_max cfgDeath uZero gTen 1 1 (by norm_num [cfgDeath, g])).2⟩

/-- Witness for claim C3 at the concrete death scenario. -/
theorem cost_increment_formula_witness :
    (set_care_pathway cfgDeath uZero gTen 1 (Patient.mk0 1)).recs.headI.cost =
      (⌊gTen ((set_care_pathway cfgDeath uZero gTen 1
          (Patient.mk0 1)).recs.headI.treatment_cycles - 1)⌋ : ℚ) *
        cfgDeath.c_treatment_daily +
      (if (set_care_pathway cfgDeath uZero gTen 1
          (Patient.mk0 1)).recs.headI.treatment_cycles = 1
        then cfgDeath.c_treatment_init else 0) :=
  cost_increment_formula_per_record cfgDeath uZero gTen 1 1
    (fun k => by norm_num [gTen]) _
    (by
      rw [pathway_dies_first cfgDeath uZero gTen 1 1 (by norm_num [cfgDeath, g])
        (by norm_num [cfgDeath, g, uZero])]
      exact List.mem_singleton.2 rfl)
    (by
      rw [pathway_dies_first cfgDeath uZero gTen 1 1 (by norm_num [cfgDeath, g])
        (by norm_num [cfgDeath, g, uZero])]
      rfl)

/-- Witness for claim C4 at the two concrete boundary configurations. -/
theorem boundary_prob_death_witness :
    cfgSurvive.prob_death = 0 ∧ cfgDeath.prob_death = 1 ∧ 0 < cfgDeath.max_cycles ∧
    (set_care_pathway cfgSurvive uZero gTen 1 (Patient.mk0 1)).patient.state =
      PState.Alive ∧
    (set_care_pathway cfgDeath uZero gTen 1 (Patient.mk0 1)).patient.state =
      PState.Dead :=
  ⟨by norm_num [cfgSurvive, g], by norm_num [cfgDeath, g], by norm_num [cfgDeath, g],
   ((boundary_prob_death cfgSurvive cfgDeath uZero gTen 1 1
      (by norm_num [cfgSurvive, g]) (by norm_num [cfgDeath, g])
      (by norm_num [cfgDeath, g])
      (fun k => ⟨le_refl 0, by norm_num [uZero]⟩)).1).1,
   ((boundary_prob_death cfgSurvive cfgDeath uZero gTen 1 1
      (by norm_num [cfgSurvive, g]) (by norm_num [cfgDeath, g])
      (by norm_num [cfgDeath, g])
      (fun k => ⟨le_refl 0, by norm_num [uZero]⟩)).2).1⟩

/-- Witness for the amended claim C2 at the concrete bad configuration. -/
theorem no_validation_runs_witness :
    cfgBad.prob_death = 2 ∧ 0 < cfgBad.max_cycles ∧
    (set_care_pathway cfgBad uZero gTen 1 (Patient.mk0 1)).patient.state =
      PState.Dead :=
  ⟨by norm_num [cfgBad, g], by norm_num [cfgBad, g],
   (no_validation_runs_with_bad_value cfgBad uZero gTen 1 1
      (by norm_num [cfgBad, g]) (by norm_num [cfgBad, g])
      (fun k => ⟨le_refl 0, by norm_num [uZero]⟩)).1⟩

end HEModel
